import Mathlib

/-!
Shallow embedding of the scroll-driven 3D scene of this repository
(src/src/components/Hammer/HammerScene.tsx, src/src/components/TechStack.tsx,
src/src/components/utils/GsapScroll.ts, src/src/App.tsx) and proofs about it.

Numbers that the source manipulates as JS numbers are embedded as rationals
(the arithmetic involved is exact: sums, products, max).
-/

namespace Portfolio

/-! ## HammerModel scroll update (HammerScene.tsx, ScrollTrigger id "hammer")

The `onUpdate` callback of the ScrollTrigger created in `HammerModel`
(first component version, lines 140-185) assigns, from `self.progress` and
the layout flag `isMobile` alone:
  el.position.y     = startY - progress * 2.5         (startY: -1.5 mobile / -0.5 desktop)
  el.scale          = baseScale * (1 - progress*0.1)  (baseScale: 0.55 mobile / 0.8 desktop)
  material opacity  = max(0, 1 - progress*1.5)
  lightning bolts' userData.scrollOpacity = max(0, 1 - progress*1.5)
-/

/-- Layout start height of the hammer group: `isMobile ? -1.5 : -0.5`. -/
def startY (isMobile : Bool) : ℚ := if isMobile then -1.5 else -0.5

/-- Base uniform scale of the hammer group: `isMobile ? 0.55 : 0.8`. -/
def baseScale (isMobile : Bool) : ℚ := if isMobile then 0.55 else 0.8

/-- Visual state written by the scroll handler: group height, uniform scale,
material opacity, and the scroll-opacity stamped on the lightning bolts. -/
structure HammerVisual where
  posY : ℚ
  scale : ℚ
  opacity : ℚ
  lightningScrollOpacity : ℚ
deriving DecidableEq, Repr

/-- The ScrollTrigger `onUpdate` handler of `HammerModel`: it overwrites every
field of the visual state from the delivered progress value (the previous
state `prev` is taken as input because the handler mutates it in place, but
the source reads none of it). -/
def hammerScrollOnUpdate (prev : HammerVisual) (isMobile : Bool) (p : ℚ) :
    HammerVisual :=
  { posY := startY isMobile - p * 2.5
    scale := baseScale isMobile * (1 - p * 0.1)
    opacity := max 0 (1 - p * 1.5)
    lightningScrollOpacity := max 0 (1 - p * 1.5) }

/-- C2: the scroll-to-output mapping is deterministic — the `onUpdate`
handler of the hammer ScrollTrigger is a pure function of the delivered
progress value and the layout mode: two updates with the same progress and
layout emit identical position.y, scale and opacity, whatever visual state
(history) each starts from. -/
theorem hammer_scroll_update_deterministic
    (s s' : HammerVisual) (isMobile : Bool) (p : ℚ) :
    hammerScrollOnUpdate s isMobile p = hammerScrollOnUpdate s' isMobile p := rfl

/-- C3: for progress values p ≤ q in [0,1], each scroll-driven output moves
monotonically between its endpoint values: position.y at p is ≥ position.y
at q, scale at p is ≥ scale at q, and opacity at p is ≥ opacity at q. -/
theorem hammer_scroll_outputs_monotone
    (s : HammerVisual) (isMobile : Bool) (p q : ℚ)
    (hp : 0 ≤ p) (hq : q ≤ 1) (hpq : p ≤ q) :
    (hammerScrollOnUpdate s isMobile q).posY ≤ (hammerScrollOnUpdate s isMobile p).posY ∧
    (hammerScrollOnUpdate s isMobile q).scale ≤ (hammerScrollOnUpdate s isMobile p).scale ∧
    (hammerScrollOnUpdate s isMobile q).opacity ≤ (hammerScrollOnUpdate s isMobile p).opacity := by
  refine ⟨?_, ?_, ?_⟩
  · simp only [hammerScrollOnUpdate]
    linarith
  · simp only [hammerScrollOnUpdate, baseScale]
    cases isMobile <;> simp <;> linarith
  · simp only [hammerScrollOnUpdate]
    exact max_le_max le_rfl (by linarith)

/-- Witness for C3 at p = 1/4, q = 3/4 on desktop layout. -/
theorem hammer_scroll_outputs_monotone_witness :
    (0 : ℚ) ≤ 1/4 ∧ (3/4 : ℚ) ≤ 1 ∧ (1/4 : ℚ) ≤ 3/4 ∧
    ((hammerScrollOnUpdate ⟨0, 0, 0, 0⟩ false (3/4)).posY ≤
       (hammerScrollOnUpdate ⟨0, 0, 0, 0⟩ false (1/4)).posY ∧
     (hammerScrollOnUpdate ⟨0, 0, 0, 0⟩ false (3/4)).scale ≤
       (hammerScrollOnUpdate ⟨0, 0, 0, 0⟩ false (1/4)).scale ∧
     (hammerScrollOnUpdate ⟨0, 0, 0, 0⟩ false (3/4)).opacity ≤
       (hammerScrollOnUpdate ⟨0, 0, 0, 0⟩ false (1/4)).opacity) :=
  ⟨by norm_num, by norm_num, by norm_num,
   hammer_scroll_outputs_monotone ⟨0, 0, 0, 0⟩ false (1/4) (3/4)
     (by norm_num) (by norm_num) (by norm_num)⟩

/-- C4: at the exact endpoints the scroll handler emits the endpoint keyframe
values exactly: at progress 0 the rest values (position.y = startY, scale =
baseScale, opacity = 1), at progress 1 the final values (position.y =
startY - 2.5, scale = 0.9·baseScale, opacity = 0), and opacity is never
negative at any progress. -/
theorem hammer_scroll_endpoint_values (s : HammerVisual) (isMobile : Bool) :
    (hammerScrollOnUpdate s isMobile 0).posY = startY isMobile ∧
    (hammerScrollOnUpdate s isMobile 0).scale = baseScale isMobile ∧
    (hammerScrollOnUpdate s isMobile 0).opacity = 1 ∧
    (hammerScrollOnUpdate s isMobile 1).posY = startY isMobile - 2.5 ∧
    (hammerScrollOnUpdate s isMobile 1).scale = 0.9 * baseScale isMobile ∧
    (hammerScrollOnUpdate s isMobile 1).opacity = 0 ∧
    (∀ p : ℚ, 0 ≤ (hammerScrollOnUpdate s isMobile p).opacity) := by
  refine ⟨by simp [hammerScrollOnUpdate], by simp [hammerScrollOnUpdate],
    by norm_num [hammerScrollOnUpdate], by norm_num [hammerScrollOnUpdate],
    ?_, by norm_num [hammerScrollOnUpdate], fun p => le_max_left 0 _⟩
  cases isMobile <;> norm_num [hammerScrollOnUpdate, baseScale]

/-! ## Docked HammerModel scroll update (HammerScene.tsx, second component
version, lines 396-443)

Its ScrollTrigger `onUpdate` assigns from `self.progress` and `isMobile`:
  el.position.y    = startY - progress * 8          (startY: -0.5 mobile / 0 desktop)
  el.scale         = baseScale * (1 - progress*0.3) (baseScale: 0.7 mobile / 1.2 desktop)
  material opacity = max(0, 1 - progress*1.5)
  child.visible    = (mat.opacity > 0)
-/

/-- Start height in the docked version: `isMobile ? -0.5 : 0`. -/
def startYDocked (isMobile : Bool) : ℚ := if isMobile then -0.5 else 0

/-- Base scale in the docked version: `isMobile ? 0.7 : 1.2`. -/
def baseScaleDocked (isMobile : Bool) : ℚ := if isMobile then 0.7 else 1.2

/-- Visual state written by the docked version's scroll handler, including
the discrete visibility toggle set from the opacity. -/
structure HammerVisualDocked where
  posY : ℚ
  scale : ℚ
  opacity : ℚ
  visible : Bool
deriving DecidableEq, Repr

/-- The docked version's ScrollTrigger `onUpdate` handler: overwrites the
visual state from the delivered progress; visibility is recomputed as
`mat.opacity > 0` after `mat.opacity = max(0, 1 - progress * 1.5)`. -/
def hammerScrollOnUpdateDocked (prev : HammerVisualDocked) (isMobile : Bool)
    (p : ℚ) : HammerVisualDocked :=
  let op : ℚ := max 0 (1 - p * 1.5)
  { posY := startYDocked isMobile - p * 8
    scale := baseScaleDocked isMobile * (1 - p * 0.3)
    opacity := op
    visible := decide (0 < op) }

/-- Folding the docked scroll handler over a whole sequence of delivered
progress values: models several scroll updates arriving in order. -/
def hammerDockedRun (s : HammerVisualDocked) (isMobile : Bool)
    (ps : List ℚ) : HammerVisualDocked :=
  ps.foldl (fun st q => hammerScrollOnUpdateDocked st isMobile q) s

/-- C5: a progress jump straight to 1.0 in one update leaves every output in
the same state as passing through any sequence of intermediate progress
values first (the handler depends only on the final progress), and the
discrete visibility toggle reflects only the delivered progress: the mesh is
visible exactly when progress < 2/3. -/
theorem hammer_docked_fast_scroll_equivalence
    (s : HammerVisualDocked) (isMobile : Bool) (ps : List ℚ) (p : ℚ) :
    hammerDockedRun s isMobile (ps ++ [1]) = hammerScrollOnUpdateDocked s isMobile 1 ∧
    (hammerScrollOnUpdateDocked s isMobile p).visible = decide (p < 2/3) := by
  constructor
  · have hpure : ∀ (a b : HammerVisualDocked) (q : ℚ),
        hammerScrollOnUpdateDocked a isMobile q = hammerScrollOnUpdateDocked b isMobile q :=
      fun _ _ _ => rfl
    simp only [hammerDockedRun, List.foldl_append, List.foldl_cons, List.foldl_nil]
    exact hpure _ s 1
  · simp only [hammerScrollOnUpdateDocked]
    have : (0 < max 0 (1 - p * 1.5)) ↔ (p < 2/3) := by
      rw [lt_max_iff]
      constructor
      · rintro (h | h) <;> [exact absurd h (lt_irrefl 0); linarith]
      · intro h; right; linarith
    simp [this]

/-! ## Model asset loading (HammerScene.tsx line 89 / line 358)

Both versions of `HammerModel` obtain the scene with
`useGLTF("/models/hammer.glb")`: the binary model is fetched from a plain
URL and handed to the GLTF parser directly. No decryption function exists
anywhere in the component sources, and no encrypted-blob URL is requested. -/

/-- One step of the model asset pipeline. -/
inductive LoadStep
  | fetch (url : String)
  | decrypt
  | parseGLTF
deriving DecidableEq, Repr

/-- The asset pipeline run by `useGLTF("/models/hammer.glb")` in
`HammerModel`: fetch the .glb from its public URL, then parse it. -/
def hammerModelLoadPipeline : List LoadStep :=
  [LoadStep.fetch "/models/hammer.glb", LoadStep.parseGLTF]

/-- C1 counterexample: on a page load, the model pipeline contains no
decryption step at all — a plaintext .glb is fetched and parsed directly,
contradicting "delivered as an encrypted blob and decrypted just-in-time
... never fetched or loaded as plaintext". -/
theorem hammer_model_load_no_decrypt_cex :
    LoadStep.decrypt ∉ hammerModelLoadPipeline ∧
    LoadStep.fetch "/models/hammer.glb" ∈ hammerModelLoadPipeline := by
  constructor
  · intro h
    simp [hammerModelLoadPipeline] at h
  · simp [hammerModelLoadPipeline]

/-- C1 amended: the model binary is fetched as a plaintext GLTF binary from
the public URL /models/hammer.glb and parsed directly; the pipeline has no
decryption step. -/
theorem hammer_model_load_plaintext :
    hammerModelLoadPipeline =
      [LoadStep.fetch "/models/hammer.glb", LoadStep.parseGLTF] ∧
    ∀ step ∈ hammerModelLoadPipeline, step ≠ LoadStep.decrypt := by
  exact ⟨rfl, by decide⟩

/-! ## Responsive layout classification

Each component derives its own mobile/compact flag from the viewport width:
  TechStack.tsx line 144/147:         window.innerWidth < 768
  HammerScene.tsx line 217/220:       window.innerWidth < 1024
  GsapScroll.ts line 32 and line 102: window.innerWidth > 1024 selects the
                                      wide branch of the registered tweens.
-/

/-- TechStack's mobile flag: `window.innerWidth < 768`. -/
def techStackIsMobile (w : ℕ) : Bool := w < 768

/-- HammerScene's mobile flag: `window.innerWidth < 1024`. -/
def hammerSceneIsMobile (w : ℕ) : Bool := w < 1024

/-- The wide-layout test of `setPageScrollAnimations` and `setAllTimeline`:
`window.innerWidth > 1024`. -/
def pageScrollWide (w : ℕ) : Bool := 1024 < w

/-- C8 counterexample: at viewport width 800 the components disagree on the
compact/wide classification — TechStack classifies 800 as wide
(not mobile) while HammerScene classifies it as mobile, so there is no
single shared threshold. -/
theorem responsive_threshold_mismatch_cex :
    techStackIsMobile 800 = false ∧ hammerSceneIsMobile 800 = true ∧
    hammerSceneIsMobile 1024 = false ∧ pageScrollWide 1024 = false := by
  refine ⟨?_, ?_, ?_, ?_⟩ <;> decide

/-- C8 amended: each component's flag is a pure boolean function of the
viewport width re-read per resize, but the thresholds differ: TechStack and
HammerScene agree exactly outside the band [768, 1024), and the GSAP scroll
animations' wide test agrees with HammerScene's everywhere except at width
exactly 1024 (which HammerScene classifies wide but the animations classify
compact). -/
theorem responsive_thresholds_characterised :
    (∀ w : ℕ, (techStackIsMobile w = hammerSceneIsMobile w) ↔ (w < 768 ∨ 1024 ≤ w)) ∧
    (∀ w : ℕ, (pageScrollWide w = !hammerSceneIsMobile w) ↔ w ≠ 1024) := by
  constructor
  · intro w
    simp only [techStackIsMobile, hammerSceneIsMobile, decide_eq_decide]
    constructor
    · intro h
      by_cases h768 : w < 768
      · exact Or.inl h768
      · right
        by_contra hlt
        exact h768 (h.mpr (by omega))
    · intro h
      omega
  · intro w
    simp only [pageScrollWide, hammerSceneIsMobile]
    constructor
    · intro h hw
      subst hw
      simp at h
    · intro h
      rcases Nat.lt_trichotomy w 1024 with hlt | heq | hgt
      · have h1 : ¬ (1024 < w) := by omega
        simp [h1, hlt]
      · exact absurd heq h
      · have h1 : ¬ (w < 1024) := by omega
        simp [h1, hgt]

/-! ## Event-listener bookkeeping at teardown

TechStack.tsx, effect at lines 146-176, in source order:
  window.addEventListener("resize", handleResize)                (line 148)
  for each ".header a" element: element.addEventListener("click", ...) (159-169)
  window.addEventListener("scroll", handleScroll)                (line 171)
cleanup (172-175):
  window.removeEventListener("scroll", handleScroll)
  window.removeEventListener("resize", handleResize)

HammerScene.tsx, effect at lines 219-223:
  window.addEventListener("resize", handleResize); cleanup removes it. -/

/-- A DOM node a listener is attached to. -/
inductive DomTarget
  | window
  | headerAnchor (i : ℕ)
deriving DecidableEq, Repr

/-- The event a listener subscribes to. -/
inductive EventKind
  | resize
  | scroll
  | click
deriving DecidableEq, Repr

/-- One registered listener. -/
structure ListenerReg where
  target : DomTarget
  kind : EventKind
deriving DecidableEq, Repr

/-- Listeners registered by TechStack's effect body, for a page with
`nAnchors` elements matching ".header a", in source order. -/
def techStackSetupListeners (nAnchors : ℕ) : List ListenerReg :=
  ⟨DomTarget.window, EventKind.resize⟩ ::
    ((List.range nAnchors).map fun i => ⟨DomTarget.headerAnchor i, EventKind.click⟩) ++
    [⟨DomTarget.window, EventKind.scroll⟩]

/-- Listeners detached by TechStack's effect cleanup. -/
def techStackCleanupRemovals : List ListenerReg :=
  [⟨DomTarget.window, EventKind.scroll⟩, ⟨DomTarget.window, EventKind.resize⟩]

/-- Listeners still registered after TechStack's cleanup ran. -/
def techStackRemainingListeners (nAnchors : ℕ) : List ListenerReg :=
  (techStackSetupListeners nAnchors).filter
    fun l => decide (l ∉ techStackCleanupRemovals)

/-- Listeners registered by HammerScene's resize effect body. -/
def hammerSceneSetupListeners : List ListenerReg :=
  [⟨DomTarget.window, EventKind.resize⟩]

/-- Listeners detached by HammerScene's resize effect cleanup. -/
def hammerSceneCleanupRemovals : List ListenerReg :=
  [⟨DomTarget.window, EventKind.resize⟩]

/-- Listeners still registered after HammerScene's cleanup ran. -/
def hammerSceneRemainingListeners : List ListenerReg :=
  hammerSceneSetupListeners.filter
    fun l => decide (l ∉ hammerSceneCleanupRemovals)

/-- C6: on a page with one ".header a" element, TechStack's cleanup leaves
the click listener it attached to that anchor still registered (only the
window scroll and resize listeners are removed), while HammerScene's resize
cleanup does detach everything it registered. -/
theorem techstack_cleanup_leaks_click_listener :
    techStackRemainingListeners 1 = [⟨DomTarget.headerAnchor 0, EventKind.click⟩] ∧
    techStackRemainingListeners 1 ≠ [] ∧
    hammerSceneRemainingListeners = [] := by
  refine ⟨?_, ?_, ?_⟩ <;> decide

/-! ## Loading collaborator lifecycle (HammerScene.tsx lines 225-243)

HammerScene's main effect runs, in order:
  let progress = setProgress((value) => setLoading(value));
  progress.loaded();
and its cleanup runs progress.clear(). The effect's dependency array is
[setLoading], whose identity is stable, so the pair runs once per scene
lifetime. -/

/-- A call crossing the loading-collaborator interface. -/
inductive LoadingCall
  | report (pct : ℚ)
  | loaded
  | clear
deriving DecidableEq, Repr

/-- Modelled from the spec: the `setProgress` utility lives in
src/components/Loading.tsx, which is not among the provided sources; per the
spec the core "emits percentage updates during decrypt+parse", i.e. all
`reportProgress` callbacks fire during the asset decrypt+parse phase, before
loading completes. -/
def setProgressReports (reports : List ℚ) : List LoadingCall :=
  reports.map LoadingCall.report

/-- The full sequence of loading-collaborator calls over one scene lifetime
(mount to unmount): the decrypt+parse-phase percentage reports, then the
single `loaded()` from the effect body, then the single `clear()` from the
effect cleanup. -/
def hammerSceneLoadingCalls (reports : List ℚ) : List LoadingCall :=
  setProgressReports reports ++ [LoadingCall.loaded] ++ [LoadingCall.clear]

/-- C7: over one scene lifetime the core calls `loaded()` exactly once and
`clear()` exactly once, and every percentage report precedes `loaded()` —
once loading has completed the only remaining collaborator calls are
`loaded()` followed by the teardown `clear()`. -/
theorem hammer_scene_loading_lifecycle (reports : List ℚ) :
    (hammerSceneLoadingCalls reports).count LoadingCall.loaded = 1 ∧
    (hammerSceneLoadingCalls reports).count LoadingCall.clear = 1 ∧
    (hammerSceneLoadingCalls reports).dropWhile
        (fun c => decide (c ≠ LoadingCall.loaded)) =
      [LoadingCall.loaded, LoadingCall.clear] := by
  induction reports with
  | nil => exact ⟨rfl, rfl, rfl⟩
  | cons r rs ih =>
    obtain ⟨h1, h2, h3⟩ := ih
    refine ⟨?_, ?_, ?_⟩
    · simpa [hammerSceneLoadingCalls, setProgressReports, List.count_cons] using h1
    · simpa [hammerSceneLoadingCalls, setProgressReports, List.count_cons] using h2
    · simpa [hammerSceneLoadingCalls, setProgressReports, List.dropWhile] using h3

/-! ## Per-frame pointer-hover rotation (HammerScene.tsx lines 121-133)

Every frame, the first `HammerModel` runs:
  targetZ = hovered ? Math.sin(t * 2) * 0.02 : 0
  targetX = hovered ? Math.sin(t * 1.5) * 0.01 : 0
  rotation.z = lerp(rotation.z, targetZ, 0.05)
  rotation.x = lerp(rotation.x, targetX, 0.05)
with initial rotation [0.2, -0.5, 0]. The sine samples are embedded as frame
inputs constrained to [-1, 1], the range of Math.sin. -/

/-- THREE.MathUtils.lerp: `x + (y - x) * t`. -/
def lerp (x y t : ℚ) : ℚ := x + (y - x) * t

/-- Per-frame input to the hover animation: whether the pointer is over the
model, and the two sine samples of the elapsed clock. -/
structure FrameInput where
  hovered : Bool
  sinZ : ℚ
  sinX : ℚ
deriving DecidableEq, Repr

/-- The x and z rotation components the hover animation writes. -/
structure HammerRotation where
  x : ℚ
  z : ℚ
deriving DecidableEq, Repr

/-- One `useFrame` step of the hover animation. -/
def hoverFrameStep (r : HammerRotation) (f : FrameInput) : HammerRotation :=
  let targetZ : ℚ := if f.hovered then f.sinZ * 0.02 else 0
  let targetX : ℚ := if f.hovered then f.sinX * 0.01 else 0
  { z := lerp r.z targetZ 0.05
    x := lerp r.x targetX 0.05 }

/-- The group's initial rotation: `rotation={[0.2, -0.5, 0]}`, so x starts
at 0.2 and z starts at 0. -/
def initialHammerRotation : HammerRotation := { x := 0.2, z := 0 }

/-- Rotation after a whole sequence of frames from the initial rotation. -/
def runHoverFrames (fs : List FrameInput) : HammerRotation :=
  fs.foldl hoverFrameStep initialHammerRotation

/-- Interval preservation of one lerp step: a convex combination of two
points of an interval stays in it. -/
theorem lerp_mem_interval (lo hi a b : ℚ) (ha : lo ≤ a) (ha' : a ≤ hi)
    (hb : lo ≤ b) (hb' : b ≤ hi) :
    lo ≤ lerp a b 0.05 ∧ lerp a b 0.05 ≤ hi := by
  unfold lerp
  constructor <;> nlinarith

/-- One hover frame keeps z in [-0.02, 0.02] and x in [-0.01, 0.2] whenever
the sine samples are in [-1, 1]. -/
theorem hoverFrameStep_preserves_bounds (r : HammerRotation) (f : FrameInput)
    (hz : -0.02 ≤ r.z ∧ r.z ≤ 0.02) (hx : -0.01 ≤ r.x ∧ r.x ≤ 0.2)
    (hsZ : -1 ≤ f.sinZ ∧ f.sinZ ≤ 1) (hsX : -1 ≤ f.sinX ∧ f.sinX ≤ 1) :
    (-0.02 ≤ (hoverFrameStep r f).z ∧ (hoverFrameStep r f).z ≤ 0.02) ∧
    (-0.01 ≤ (hoverFrameStep r f).x ∧ (hoverFrameStep r f).x ≤ 0.2) := by
  unfold hoverFrameStep
  constructor
  · refine lerp_mem_interval _ _ _ _ hz.1 hz.2 ?_ ?_ <;>
      rcases f.hovered with _ | _ <;> simp <;> nlinarith [hsZ.1, hsZ.2]
  · refine lerp_mem_interval _ _ _ _ hx.1 hx.2 ?_ ?_ <;>
      rcases f.hovered with _ | _ <;> simp <;> nlinarith [hsX.1, hsX.2]

/-- C9: for every frame sequence whose sine samples lie in [-1, 1] (as
Math.sin's outputs do), the hover rotation stays within its configured
bounds: rotation.z remains in [-0.02, 0.02] and rotation.x remains in
[-0.01, 0.2], the interval spanned by its initial value 0.2 and the target
range [-0.01, 0.01] — regardless of pointer extremity. -/
theorem hover_rotation_bounded (fs : List FrameInput)
    (hfs : ∀ f ∈ fs, (-1 ≤ f.sinZ ∧ f.sinZ ≤ 1) ∧ (-1 ≤ f.sinX ∧ f.sinX ≤ 1)) :
    (-0.02 ≤ (runHoverFrames fs).z ∧ (runHoverFrames fs).z ≤ 0.02) ∧
    (-0.01 ≤ (runHoverFrames fs).x ∧ (runHoverFrames fs).x ≤ 0.2) := by
  suffices h : ∀ (r : HammerRotation),
      (-0.02 ≤ r.z ∧ r.z ≤ 0.02) → (-0.01 ≤ r.x ∧ r.x ≤ 0.2) →
      (∀ f ∈ fs, (-1 ≤ f.sinZ ∧ f.sinZ ≤ 1) ∧ (-1 ≤ f.sinX ∧ f.sinX ≤ 1)) →
      (-0.02 ≤ (fs.foldl hoverFrameStep r).z ∧ (fs.foldl hoverFrameStep r).z ≤ 0.02) ∧
      (-0.01 ≤ (fs.foldl hoverFrameStep r).x ∧ (fs.foldl hoverFrameStep r).x ≤ 0.2) by
    exact h initialHammerRotation (by norm_num [initialHammerRotation])
      (by norm_num [initialHammerRotation]) hfs
  clear hfs
  induction fs with
  | nil => intro r hz hx _; exact ⟨hz, hx⟩
  | cons f fs ih =>
    intro r hz hx hall
    have hf := hall f (List.mem_cons_self f fs)
    have hstep := hoverFrameStep_preserves_bounds r f hz hx hf.1 hf.2
    simpa using ih (hoverFrameStep r f) hstep.1 hstep.2
      (fun g hg => hall g (List.mem_cons_of_mem f hg))

/-- Witness for C9 on a concrete two-frame history with extreme sine
samples, one frame hovered and one not. -/
theorem hover_rotation_bounded_witness :
    (∀ f ∈ [FrameInput.mk true 1 (-1), FrameInput.mk false (-1) 1],
      (-1 ≤ f.sinZ ∧ f.sinZ ≤ 1) ∧ (-1 ≤ f.sinX ∧ f.sinX ≤ 1)) ∧
    ((-0.02 ≤ (runHoverFrames [FrameInput.mk true 1 (-1), FrameInput.mk false (-1) 1]).z ∧
      (runHoverFrames [FrameInput.mk true 1 (-1), FrameInput.mk false (-1) 1]).z ≤ 0.02) ∧
     (-0.01 ≤ (runHoverFrames [FrameInput.mk true 1 (-1), FrameInput.mk false (-1) 1]).x ∧
      (runHoverFrames [FrameInput.mk true 1 (-1), FrameInput.mk false (-1) 1]).x ≤ 0.2)) :=
  ⟨by decide,
   hover_rotation_bounded [FrameInput.mk true 1 (-1), FrameInput.mk false (-1) 1]
     (by decide)⟩

/-! ## ScrollTrigger registry at scene mount

HammerScene.tsx lines 225-243 (first version): the mount effect looks up
`ScrollTrigger.getById("work")` and `ScrollTrigger.getById("hammer")`, kills
every trigger in `ScrollTrigger.getAll()` that is not one of those two
objects, then calls `setAllTimeline()` (which registers the career-section
trigger, GsapScroll.ts lines 61-70) and `setPageScrollAnimations()` (which
registers the landing/about/whatIDO triggers unconditionally, GsapScroll.ts
lines 3-30, plus the `.what-box-in` trigger when the width is ≤ 1024, lines
49-57). -/

/-- A registered ScrollTrigger: a distinguishing tag (object identity) and
an optional id. -/
structure Trigger where
  tag : ℕ
  tid : Option String
deriving DecidableEq, Repr

/-- `ScrollTrigger.getById`: the first registered trigger carrying the id. -/
def getById (reg : List Trigger) (s : String) : Option Trigger :=
  reg.find? fun t => decide (t.tid = some s)

/-- The kill loop of HammerScene's mount effect: every trigger that is not
the object returned by `getById "work"` nor the one returned by
`getById "hammer"` is killed. -/
def hammerSceneMountSurvivors (reg : List Trigger) : List Trigger :=
  let w := getById reg "work"
  let h := getById reg "hammer"
  reg.filter fun t => decide (w = some t) || decide (h = some t)

/-- A scroll timeline newly registered during the mount effect. -/
inductive PageTrig
  | career
  | landing
  | about
  | whatido
  | whatBoxMobile
deriving DecidableEq, Repr

/-- Triggers registered by `setAllTimeline` (GsapScroll.ts): the career
timeline's trigger, created whatever the width. -/
def setAllTimelineTrigs : List PageTrig := [PageTrig.career]

/-- Triggers registered by `setPageScrollAnimations` (GsapScroll.ts): the
three page timelines are created unconditionally; on widths ≤ 1024 the
`.what-box-in` mobile trigger is created too. -/
def setPageScrollAnimationsTrigs (w : ℕ) : List PageTrig :=
  [PageTrig.landing, PageTrig.about, PageTrig.whatido] ++
    (if 1024 < w then [] else [PageTrig.whatBoxMobile])

/-- All scroll timelines (re)registered by HammerScene's mount effect after
the kill loop. -/
def hammerSceneMountNewTrigs (w : ℕ) : List PageTrig :=
  setAllTimelineTrigs ++ setPageScrollAnimationsTrigs w

/-- C10: when ids are unique (at most one registered trigger carries id
"work" and at most one carries id "hammer"), mounting the scene preserves
exactly the previously registered triggers whose id is "work" or "hammer"
and destroys every other one; the scroll timelines existing afterwards
besides those survivors are exactly the career timeline and the page-scroll
timelines of `setPageScrollAnimations`. -/
theorem hammer_scene_mount_trigger_registry
    (reg : List Trigger) (t : Trigger) (w : ℕ)
    (hw : ∀ a ∈ reg, ∀ b ∈ reg, a.tid = some "work" → b.tid = some "work" → a = b)
    (hh : ∀ a ∈ reg, ∀ b ∈ reg, a.tid = some "hammer" → b.tid = some "hammer" → a = b) :
    (t ∈ hammerSceneMountSurvivors reg ↔
      t ∈ reg ∧ (t.tid = some "work" ∨ t.tid = some "hammer")) ∧
    hammerSceneMountNewTrigs w =
      PageTrig.career :: setPageScrollAnimationsTrigs w := by
  refine ⟨?_, rfl⟩
  have key : ∀ (s : String),
      (∀ a ∈ reg, ∀ b ∈ reg, a.tid = some s → b.tid = some s → a = b) →
      (getById reg s = some t ↔ t ∈ reg ∧ t.tid = some s) := by
    intro s huniq
    constructor
    · intro hfind
      refine ⟨List.mem_of_find?_eq_some hfind, ?_⟩
      have := List.find?_some hfind
      simpa using this
    · rintro ⟨hmem, hid⟩
      have hsome : (reg.find? fun u => decide (u.tid = some s)).isSome := by
        rw [List.find?_isSome]
        exact ⟨t, hmem, by simpa using hid⟩
      obtain ⟨u, hu⟩ := Option.isSome_iff_exists.mp hsome
      have humem : u ∈ reg := List.mem_of_find?_eq_some hu
      have huid : u.tid = some s := by simpa using List.find?_some hu
      have : u = t := huniq u humem t hmem huid hid
      rw [getById, hu, this]

  constructor
  · intro hmem
    rw [hammerSceneMountSurvivors, List.mem_filter] at hmem
    obtain ⟨hreg, hcond⟩ := hmem
    refine ⟨hreg, ?_⟩
    rcases Bool.or_eq_true_iff.mp hcond with hc | hc
    · left
      have hfind : getById reg "work" = some t := by
        exact of_decide_eq_true hc
      exact ((key "work" hw).mp hfind).2
    · right
      have hfind : getById reg "hammer" = some t := by
        exact of_decide_eq_true hc
      exact ((key "hammer" hh).mp hfind).2
  · rintro ⟨hreg, hid | hid⟩
    · rw [hammerSceneMountSurvivors, List.mem_filter]
      refine ⟨hreg, ?_⟩
      have hfind : getById reg "work" = some t := (key "work" hw).mpr ⟨hreg, hid⟩
      simp [hfind]
    · rw [hammerSceneMountSurvivors, List.mem_filter]
      refine ⟨hreg, ?_⟩
      have hfind : getById reg "hammer" = some t := (key "hammer" hh).mpr ⟨hreg, hid⟩
      simp [hfind]

/-- Witness for C10 on a concrete registry holding a work trigger, a hammer
trigger, an id-less trigger and a foreign "intro" trigger, asking about the
foreign trigger on a 1280-wide viewport. -/
theorem hammer_scene_mount_trigger_registry_witness :
    (∀ a ∈ [Trigger.mk 0 (some "work"), Trigger.mk 1 (some "hammer"),
            Trigger.mk 2 none, Trigger.mk 3 (some "intro")],
      ∀ b ∈ [Trigger.mk 0 (some "work"), Trigger.mk 1 (some "hammer"),
             Trigger.mk 2 none, Trigger.mk 3 (some "intro")],
      a.tid = some "work" → b.tid = some "work" → a = b) ∧
    (∀ a ∈ [Trigger.mk 0 (some "work"), Trigger.mk 1 (some "hammer"),
            Trigger.mk 2 none, Trigger.mk 3 (some "intro")],
      ∀ b ∈ [Trigger.mk 0 (some "work"), Trigger.mk 1 (some "hammer"),
             Trigger.mk 2 none, Trigger.mk 3 (some "intro")],
      a.tid = some "hammer" → b.tid = some "hammer" → a = b) ∧
    ((Trigger.mk 3 (some "intro") ∈ hammerSceneMountSurvivors
        [Trigger.mk 0 (some "work"), Trigger.mk 1 (some "hammer"),
         Trigger.mk 2 none, Trigger.mk 3 (some "intro")] ↔
      Trigger.mk 3 (some "intro") ∈
        [Trigger.mk 0 (some "work"), Trigger.mk 1 (some "hammer"),
         Trigger.mk 2 none, Trigger.mk 3 (some "intro")] ∧
      ((Trigger.mk 3 (some "intro")).tid = some "work" ∨
       (Trigger.mk 3 (some "intro")).tid = some "hammer")) ∧
     hammerSceneMountNewTrigs 1280 =
       PageTrig.career :: setPageScrollAnimationsTrigs 1280) :=
  ⟨by decide, by decide,
   hammer_scene_mount_trigger_registry
     [Trigger.mk 0 (some "work"), Trigger.mk 1 (some "hammer"),
      Trigger.mk 2 none, Trigger.mk 3 (some "intro")]
     (Trigger.mk 3 (some "intro")) 1280 (by decide) (by decide)⟩

end Portfolio
